import Mathlib

/-!
Verification of the peerless torrent-reconciliation tool.

This file shallowly embeds the core of the Go program: the `filepath`
lexical path operations it relies on (`Clean`, `Join`, `Abs`, `Rel` for
Unix separators), the string sanitizer, the deletion validation and batch
deletion of `pkg/utils/file_operations.go`, the directory reconciliation
of `pkg/service/torrent_service.go`, and the Transmission RPC session
handling of `pkg/client/transmission.go`.  Filesystem and network effects
are modelled by explicit oracles (`FSModel`, a list of pending RPC
responses), so every definition is executable and every theorem is about
the translated code.
-/

namespace Peerless

/-! ## Go `path/filepath` lexical operations (Unix rules)

`splitSlash` splits a character list at every `/` (the exact counterpart
of `strings.Split(s, "/")`): n separators yield n+1 pieces. -/

def splitSlash : List Char → List (List Char)
  | [] => [[]]
  | '/' :: rest => [] :: splitSlash rest
  | c :: rest =>
    match splitSlash rest with
    | [] => [[c]]
    | h :: t => (c :: h) :: t

/-- Join components with `/` separators (counterpart of `strings.Join(_, "/")`). -/
def joinSlash : List (List Char) → List Char
  | [] => []
  | [c] => c
  | c :: rest => c ++ '/' :: joinSlash rest

/-- The `..` component. -/
def dotdot : List Char := ['.', '.']

/-- Stack-processing of `..` components performed by `filepath.Clean`:
a `..` pops the previous component, except at the root (rooted paths) or
after leading `..`s (relative paths). -/
def cleanFold (rooted : Bool) (comps : List (List Char)) : List (List Char) :=
  comps.foldl
    (fun acc c =>
      if c = dotdot then
        match acc with
        | [] => if rooted then [] else [dotdot]
        | top :: rest => if top = dotdot then c :: acc else rest
      else c :: acc)
    []

/-- Go `filepath.Clean` on Unix, component-based: drop empty and `.`
components, resolve `..` lexically, re-join; empty cleans to `.`. -/
def cleanL (p : List Char) : List Char :=
  if p = [] then ['.']
  else
    let rooted := p.head? = some '/'
    let comps := (splitSlash p).filter (fun c => c ≠ [] ∧ c ≠ ['.'])
    let comps2 := (cleanFold rooted comps).reverse
    if rooted then '/' :: joinSlash comps2
    else if comps2 = [] then ['.'] else joinSlash comps2

/-- Go `filepath.Clean`. -/
def goClean (p : String) : String := ⟨cleanL p.data⟩

/-- Go `filepath.IsAbs` on Unix: the path starts with `/`. -/
def goIsAbs (p : String) : Bool := p.data.head? = some '/'

/-- Go `filepath.Join` restricted to two elements, as used by the program:
skip empty elements, join with `/`, then `Clean`; all-empty yields `""`. -/
def goJoin (a b : String) : String :=
  if a = "" && b = "" then ""
  else if a = "" then goClean b
  else goClean ⟨a.data ++ '/' :: b.data⟩

/-- Go `filepath.Abs` with the working directory passed explicitly
(`os.Getwd` is the only failure source and is modelled as always
succeeding): absolute paths are cleaned, relative ones joined to `cwd`. -/
def goAbs (cwd p : String) : String :=
  if goIsAbs p then goClean p else goJoin cwd p

/-- Path components as consumed by `filepath.Rel`'s scanning loop: the
empty cleaned base contributes no components and the root `/` exactly
one (empty) component; otherwise split at separators. -/
def pathCompsL (s : List Char) : List (List Char) :=
  if s = [] then [] else if s = ['/'] then [[]] else splitSlash s

/-- Drop the longest common prefix of two component lists, returning both
remainders (the position reached by `Rel`'s first-difference scan). -/
def dropCommonPrefix : List (List Char) → List (List Char) →
    List (List Char) × List (List Char)
  | a :: as, b :: bs =>
    if a = b then dropCommonPrefix as bs else (a :: as, b :: bs)
  | as, bs => (as, bs)

/-- Go `filepath.Rel` on Unix: clean both paths, succeed with `.` on
equality, fail when exactly one is rooted or when the remaining base
starts with `..`, otherwise go up once per remaining base component and
descend into the remaining target components. -/
def goRel (basepath targpath : String) : Option String :=
  let base0 := cleanL basepath.data
  let targ := cleanL targpath.data
  if targ = base0 then some "."
  else
    let base := if base0 = ['.'] then [] else base0
    let baseSlashed := base.head? = some '/'
    let targSlashed := targ.head? = some '/'
    if baseSlashed ≠ targSlashed then none
    else
      let (brest, trest) := dropCommonPrefix (pathCompsL base) (pathCompsL targ)
      match brest with
      | [] => some ⟨joinSlash trest⟩
      | bh :: _ =>
        if bh = dotdot then none
        else some ⟨joinSlash (brest.map (fun _ => dotdot) ++ trest)⟩

/-! ## Sanitizer (`pkg/utils/files.go`, `SanitizeString`) -/

/-- Go `unicode.IsControl`: membership in the Unicode `Cc` category,
i.e. U+0000–U+001F and U+007F–U+009F. -/
def uIsControl (c : Char) : Bool :=
  c.val ≤ 0x1f || (0x7f ≤ c.val && c.val ≤ 0x9f)

/-- The fixed bidirectional formatting marks removed by `SanitizeString`
(`LTRMark`, `RTLMark`, `LRE`, `RLE`, `PDF`, `LRO`, `RLO` from
`pkg/constants`). -/
def bidiMarks : List Char :=
  ['\u200E', '\u200F', '\u202A', '\u202B', '\u202C', '\u202D', '\u202E']

/-- A rune survives `SanitizeString`'s loop: it is neither a control
character other than newline/tab/carriage-return nor a bidi mark. -/
def sanitizeKeeps (c : Char) : Bool :=
  !(uIsControl c && c != '\n' && c != '\t' && c != '\r') && !(bidiMarks.contains c)

/-- Go `SanitizeString`: copy every rune that is not skipped. -/
def SanitizeString (s : String) : String := ⟨s.data.filter sanitizeKeeps⟩

/-! ## Deletion validation (`pkg/utils/file_operations.go`) -/

/-- The `systemPaths` denylist of `isSystemPath`. -/
def systemPaths : List String :=
  ["/", "/bin", "/boot", "/dev", "/etc", "/lib", "/lib64",
   "/proc", "/root", "/sbin", "/sys", "/usr", "/var",
   "C:\\Windows", "C:\\Program Files", "C:\\Program Files (x86)"]

/-- Go `isSystemPath`: resolve the argument with `filepath.Abs` and
compare it against the fixed denylist. -/
def isSystemPath (cwd path : String) : Bool :=
  systemPaths.contains (goAbs cwd path)

/-- The per-allowed-directory test in `ValidateDeletionPaths`:
`err == nil && !filepath.IsAbs(rel) && len(rel) > 0 && rel[0] != '.'`.
An empty relative path fails the length test, and both `IsAbs` and the
`rel[0]` byte test look at the first character. -/
def relOk : List Char → Bool
  | [] => false
  | c :: _ => c != '/' && c != '.'

/-- One iteration of `ValidateDeletionPaths`'s inner loop body: the
candidate's absolute path is a strict descendant of `allowedDir`. -/
def candidateAllowed (cwd absPath allowedDir : String) : Bool :=
  match goRel (goAbs cwd allowedDir) absPath with
  | none => false
  | some r => relOk r.data

/-- Go `ValidateDeletionPaths`: every candidate resolves absolutely, must
descend from some allowed directory when `allowedDirs` is non-empty, and
must not be a system path; the first violation fails the whole batch. -/
def validateDeletionPaths (cwd : String) :
    List String → List String → Except String Unit
  | [], _ => .ok ()
  | p :: rest, allowedDirs =>
    let absPath := goAbs cwd p
    if allowedDirs.length > 0 &&
        !(allowedDirs.any (fun d => candidateAllowed cwd absPath d)) then
      .error ("path " ++ p ++ " is not within allowed directories")
    else if isSystemPath cwd absPath then
      .error ("refusing to delete system path: " ++ absPath)
    else validateDeletionPaths cwd rest allowedDirs

/-! ## Filesystem oracle

The Go code acts on the host filesystem through `os.Stat`, `os.ReadDir`,
`os.Remove`/`os.RemoveAll` and the recursive `GetSize` walk.  `FSModel`
fixes the outcome of each of those calls per path; `none`/`false` stands
for the corresponding call returning an error. -/

structure FileMeta where
  isDir : Bool
  size : Int
  deriving DecidableEq, Repr

structure FSModel where
  stat : String → Option FileMeta
  dirSize : String → Option Int
  removeOk : String → Bool
  readDir : String → Option (List String)

/-- Go `GetSize` (`pkg/utils/files.go`): stat failure is an error; plain
files report their size; directories are walked recursively
(`dirSize` oracle, `none` when the walk reports an error). -/
def goGetSize (fs : FSModel) (p : String) : Option Int :=
  match fs.stat p with
  | none => none
  | some m => if m.isDir then fs.dirSize p else some m.size

/-- Go `FileOperation` record; `hasError` models a non-nil `Error` field. -/
structure FileOperation where
  path : String
  size : Int
  isDir : Bool
  hasError : Bool
  deriving DecidableEq, Repr

/-- Go `FileInfo`: returns the populated record plus whether `os.Stat`
failed (only a stat failure makes `FileInfo` itself return an error; a
failing directory-size walk only marks the record). -/
def fileInfo (fs : FSModel) (p : String) : FileOperation × Bool :=
  match fs.stat p with
  | none => (⟨p, 0, false, true⟩, true)
  | some m =>
    if m.isDir then
      match fs.dirSize p with
      | none => (⟨p, 0, true, true⟩, false)
      | some s => (⟨p, s, true, false⟩, false)
    else (⟨p, m.size, false, false⟩, false)

/-- Go `FileOperationResult`. -/
structure FileOperationResult where
  success : List FileOperation
  failed : List FileOperation
  totalSize : Int
  successCount : Nat
  failedCount : Nat
  deriving DecidableEq, Repr

/-- One iteration of `DeleteFiles`'s loop on a single candidate: the
candidate is statted, then removed (`RemoveAll` for directories,
`Remove` for files, both modelled by the `removeOk` oracle); a stat or
removal failure yields the failure record, otherwise the success
record. -/
def deleteOne (fs : FSModel) (p : String) : Except FileOperation FileOperation :=
  if (fileInfo fs p).2 then .error { (fileInfo fs p).1 with hasError := true }
  else if !(fs.removeOk p) then .error { (fileInfo fs p).1 with hasError := true }
  else .ok (fileInfo fs p).1

/-- Go `DeleteFiles`: every candidate is attempted independently in the
given order and filed under `Failed` or `Success`; iteration always
continues past failures.  The progress callback only logs and is not
modelled. -/
def deleteFiles (fs : FSModel) : List String → FileOperationResult
  | [] => ⟨[], [], 0, 0, 0⟩
  | p :: rest =>
    let r := deleteFiles fs rest
    match deleteOne fs p with
    | .error op =>
      ⟨r.success, op :: r.failed, r.totalSize, r.successCount, r.failedCount + 1⟩
    | .ok op =>
      ⟨op :: r.success, r.failed, r.totalSize + op.size,
        r.successCount + 1, r.failedCount⟩

/-- The deletion stage of `runCheck` (`main.go`): `ValidateDeletionPaths`
runs first and a validation error returns before `DeleteFiles` is ever
invoked; deletion itself additionally waits for user confirmation. -/
def runDeleteWorkflow (fs : FSModel) (cwd : String)
    (missingPaths dirs : List String) (confirmed : Bool) :
    Except String (Option FileOperationResult) :=
  match validateDeletionPaths cwd missingPaths dirs with
  | .error e => .error ("path validation failed: " ++ e)
  | .ok _ => .ok (if confirmed then some (deleteFiles fs missingPaths) else none)

/-! ## Reconciliation engine (`pkg/service/torrent_service.go`) -/

/-- Go `NormalizeName` (`pkg/utils`): lower-case on case-insensitive
filesystems; the platform predicate `isCaseSensitive`
(`runtime.GOOS != "windows"`) is passed in explicitly. -/
def normalizeName (caseSensitive : Bool) (name : String) : String :=
  if caseSensitive then name else name.toLower

/-- Go `types.TorrentInfo`. -/
structure TorrentInfo where
  id : Int
  name : String
  downloadDir : String
  hashString : String
  deriving DecidableEq, Repr

/-- Go `DirectoryResult`. -/
structure DirectoryResult where
  path : String
  totalItems : Nat
  foundItems : Nat
  missingSize : Int
  missingPaths : List String
  deriving DecidableEq, Repr

/-- Go `DirectoryCheckResult`. -/
structure DirectoryCheckResult where
  directories : List DirectoryResult
  totalItems : Nat
  totalFound : Nat
  totalMissingSize : Int
  missingPaths : List String
  deriving DecidableEq, Repr

/-- The loop body of `checkSingleDirectory`: a normalized-name hit only
increments the found counter; a miss records the absolute path (the
`filepath.Abs` fallback to the relative path cannot fire in the model)
and adds the entry's size when `GetSize` succeeds. -/
def checkEntry (fs : FSModel) (cwd : String) (cs : Bool)
    (tmap : String → Bool) (dir : String) (r : DirectoryResult)
    (name : String) : DirectoryResult :=
  if tmap (normalizeName cs name) then
    { r with foundItems := r.foundItems + 1 }
  else
    let fullPath := goJoin dir name
    let absPath := goAbs cwd fullPath
    { r with
        missingPaths := r.missingPaths ++ [absPath],
        missingSize := r.missingSize +
          (match goGetSize fs fullPath with | some s => s | none => 0) }

/-- Go `checkSingleDirectory`: an unreadable directory is an error;
otherwise every immediate entry is classified by normalized-name
membership in the torrent lookup set. -/
def checkSingleDirectory (fs : FSModel) (cwd : String) (cs : Bool)
    (tmap : String → Bool) (dir : String) : Except String DirectoryResult :=
  match fs.readDir dir with
  | none => .error "failed to read directory"
  | some entries =>
    .ok (entries.foldl (checkEntry fs cwd cs tmap dir)
      ⟨dir, entries.length, 0, 0, []⟩)

/-- The per-directory loop of `CheckDirectories`, after the torrent map
has been built: the first failing directory aborts with a wrapped error,
successful results are appended and summed into the aggregate. -/
def checkDirsAux (fs : FSModel) (cwd : String) (cs : Bool)
    (tmap : String → Bool) : List String → Except String DirectoryCheckResult
  | [] => .ok ⟨[], 0, 0, 0, []⟩
  | d :: rest =>
    match checkSingleDirectory fs cwd cs tmap d with
    | .error e => .error ("failed to check directory " ++ d ++ ": " ++ e)
    | .ok dr =>
      match checkDirsAux fs cwd cs tmap rest with
      | .error e => .error e
      | .ok r =>
        .ok ⟨dr :: r.directories,
          dr.totalItems + r.totalItems,
          dr.foundItems + r.totalFound,
          dr.missingSize + r.totalMissingSize,
          dr.missingPaths ++ r.missingPaths⟩

/-- Go `CheckDirectories` with the torrent list already fetched: build
the normalized-name lookup set, then process the requested directories
in order. -/
def checkDirectories (fs : FSModel) (cwd : String) (cs : Bool)
    (torrents : List TorrentInfo) (dirs : List String) :
    Except String DirectoryCheckResult :=
  checkDirsAux fs cwd cs
    (fun k => torrents.any (fun t => normalizeName cs t.name = k)) dirs

/-! ## RPC client (`pkg/client/transmission.go`)

An HTTP exchange is modelled by the response the daemon produces:
its status code, the value of the `X-Transmission-Session-Id` header
(`""` when absent, as returned by Go's `Header.Get`), the logical
`result` field of the JSON payload and the decoded torrent list. -/

structure RPCResponse where
  status : Nat
  sessionId : String
  result : String
  torrents : List TorrentInfo
  deriving DecidableEq, Repr

/-- Go `GetSessionID` (`pkg/client/transmission.go:28`), given the
response of its single POST (`none` models a transport-level failure of
`client.Do`): 401/403/404/500 and other `>= 400` statuses map to hard
errors, 409 is the expected handshake response whose header carries the
token, and a missing header is a hard failure even on 2xx. -/
def getSessionID (host : String) (port : Nat) (resp : Option RPCResponse) :
    Except String String :=
  match resp with
  | none => .error ("connection error to " ++ host ++ ":" ++ toString port)
  | some r =>
    if r.status = 401 then
      .error ("authentication failed: invalid username or password for Transmission at "
        ++ host ++ ":" ++ toString port)
    else if r.status = 403 then
      .error ("access forbidden: insufficient permissions to access Transmission at "
        ++ host ++ ":" ++ toString port)
    else if r.status = 404 then
      .error ("Transmission RPC endpoint not found at " ++ host ++ ":" ++ toString port
        ++ ". Ensure Transmission is running and RPC is enabled")
    else if r.status = 409 then
      if r.sessionId = "" then
        .error ("session conflict response missing X-Transmission-Session-Id header from Transmission at "
          ++ host ++ ":" ++ toString port)
      else .ok r.sessionId
    else if r.status = 500 then
      .error ("Transmission server error (500) at " ++ host ++ ":" ++ toString port
        ++ ". Check Transmission logs")
    else if r.status ≥ 400 then
      .error ("HTTP " ++ toString r.status ++ " error from Transmission at "
        ++ host ++ ":" ++ toString port)
    else if r.sessionId = "" then
      .error ("no session ID received from Transmission at " ++ host ++ ":" ++ toString port
        ++ ". Ensure RPC interface is enabled")
    else .ok r.sessionId

/-- The status-to-error mapping applied to authenticated requests
(the `GetTorrents` switch / `NewTransmissionError`). -/
def statusError (status : Nat) : String :=
  if status = 401 then "authentication failed: invalid username or password"
  else if status = 403 then "access forbidden: insufficient permissions"
  else if status = 404 then "RPC endpoint not found. Ensure Transmission is running"
  else if status = 500 then "Transmission server error (500)"
  else "HTTP " ++ toString status ++ " error"

/-- Outcome of an authenticated request: the produced value or error,
the session cache afterwards, the unconsumed transport responses, and
how many transport calls were made. -/
structure AuthCallResult where
  outcome : Except String (List TorrentInfo)
  cache : Option String
  transport : List RPCResponse
  calls : Nat

/-- Modelled from the spec: the session-caching handshake of the
context-based `TransmissionClient` (`getSessionID` with a cached token),
whose source is not under `src/` (only its tests and callers are).
With a cached token it answers without any network call; otherwise it
performs one handshake POST, treating 409 as the expected success whose
header carries the token, any other `>= 400` status as a hard failure,
and a missing header as a hard failure; an exhausted transport models a
connection failure. -/
def getSessionIDCached (cache : Option String) (transport : List RPCResponse) :
    Except String String × Option String × List RPCResponse × Nat :=
  match cache with
  | some tok => (.ok tok, some tok, transport, 0)
  | none =>
    match transport with
    | [] => (.error "connection error", none, [], 1)
    | r :: rest =>
      if r.status = 409 then
        if r.sessionId = "" then (.error "no session token received", none, rest, 1)
        else (.ok r.sessionId, some r.sessionId, rest, 1)
      else if r.status ≥ 400 then (.error (statusError r.status), none, rest, 1)
      else if r.sessionId = "" then (.error "no session token received", none, rest, 1)
      else (.ok r.sessionId, some r.sessionId, rest, 1)

/-- The final leg of an authenticated request once a usable token is at
hand: non-conflict statuses `>= 400` are hard errors, and a 2xx payload
whose logical result is not `"success"` is a hard failure. -/
def finishAuthedResponse (r : RPCResponse) : Except String (List TorrentInfo) :=
  if r.status ≥ 400 then .error (statusError r.status)
  else if r.result ≠ "success" then .error ("transmission returned: " ++ r.result)
  else .ok r.torrents

/-- Modelled from the spec: `doAuthenticatedRequest` of the context-based
client, which is not under `src/`.  It acquires a token (cached or via
handshake), sends the request, and on a 409 clears the cached token and
retries the entire call exactly once with the fresh token carried in the
conflict response's session header; a second 409 is a hard session
failure with no further retries.  Other `>= 400` statuses and
non-`"success"` logical results are hard failures without retry. -/
def doAuthenticatedRequest (cache : Option String)
    (transport : List RPCResponse) : AuthCallResult :=
  match getSessionIDCached cache transport with
  | (.error e, c', tr', n) => ⟨.error e, c', tr', n⟩
  | (.ok _, c', tr', n) =>
    match tr' with
    | [] => ⟨.error "connection error", c', [], n + 1⟩
    | r :: rest =>
      if r.status = 409 then
        -- the daemon invalidated the cached token: clear it, take the
        -- fresh token from the conflict response, retry exactly once
        if r.sessionId = "" then
          ⟨.error "no session token received", none, rest, n + 1⟩
        else
          match rest with
          | [] => ⟨.error "connection error", some r.sessionId, [], n + 2⟩
          | r2 :: rest2 =>
            if r2.status = 409 then
              ⟨.error "session conflict: invalid session ID. Re-authentication required",
                none, rest2, n + 2⟩
            else
              ⟨finishAuthedResponse r2, some r.sessionId, rest2, n + 2⟩
      else
        ⟨finishAuthedResponse r, c', rest, n + 1⟩

/-- Go `GetAllTorrentPaths` after the fetch: join each torrent's storage
directory and name, sanitize, and sort ascending (`sort.Strings`; byte
order on UTF-8 agrees with the code-point order used here). -/
def getAllTorrentPaths (torrents : List TorrentInfo) : List String :=
  List.insertionSort (· ≤ ·)
    (torrents.map (fun t => SanitizeString (goJoin t.downloadDir t.name)))

/-! ## Concrete filesystem oracles used to exercise the model -/

/-- A filesystem in which `/good` is the only readable directory, with a
single entry, and every stat/removal fails. -/
def fsEx : FSModel :=
  { stat := fun _ => none
    dirSize := fun _ => none
    removeOk := fun _ => false
    readDir := fun d => if d = "/good" then some ["x"] else none }

/-- A filesystem with one readable directory `/d` holding two entries
whose sizes cannot be determined. -/
def fsC6 : FSModel :=
  { stat := fun _ => none
    dirSize := fun _ => none
    removeOk := fun _ => false
    readDir := fun d => if d = "/d" then some ["a", "b"] else none }

end Peerless

open Peerless

/-! ## Helper lemmas -/

theorem fileInfo_path (fs : FSModel) (p : String) : (fileInfo fs p).1.path = p := by
  unfold fileInfo
  cases fs.stat p with
  | none => rfl
  | some m =>
    by_cases hd : m.isDir
    · simp [hd]; cases fs.dirSize p <;> rfl
    · simp [hd]

theorem deleteOne_error_path {fs : FSModel} {p : String} {op : FileOperation}
    (h : deleteOne fs p = .error op) : op.path = p := by
  unfold deleteOne at h
  split at h
  · cases h; exact fileInfo_path fs p
  · split at h
    · cases h; exact fileInfo_path fs p
    · cases h

theorem deleteOne_ok_path {fs : FSModel} {p : String} {op : FileOperation}
    (h : deleteOne fs p = .ok op) : op.path = p := by
  unfold deleteOne at h
  split at h
  · cases h
  · split at h
    · cases h
    · cases h; exact fileInfo_path fs p

theorem deleteFiles_perm (fs : FSModel) (paths : List String) :
    (((deleteFiles fs paths).success.map (fun o => o.path)) ++
      ((deleteFiles fs paths).failed.map (fun o => o.path))).Perm paths := by
  induction paths with
  | nil => simp [deleteFiles]
  | cons p rest ih =>
    cases h : deleteOne fs p with
    | error op =>
      have hp := deleteOne_error_path h
      simp only [deleteFiles, h, List.map_cons]
      exact (List.perm_middle).trans (hp ▸ ih.cons op.path)
    | ok op =>
      have hp := deleteOne_ok_path h
      simp only [deleteFiles, h, List.map_cons, List.cons_append]
      exact hp ▸ ih.cons op.path

theorem deleteFiles_counts (fs : FSModel) (paths : List String) :
    (deleteFiles fs paths).successCount = (deleteFiles fs paths).success.length ∧
    (deleteFiles fs paths).failedCount = (deleteFiles fs paths).failed.length ∧
    (deleteFiles fs paths).success.length + (deleteFiles fs paths).failed.length
      = paths.length := by
  induction paths with
  | nil => simp [deleteFiles]
  | cons p rest ih =>
    cases h : deleteOne fs p <;>
      simp [deleteFiles, h, ih.1, ih.2.1] <;> omega

theorem deleteFiles_cons (fs : FSModel) (p : String) (rest : List String) :
    ∃ hs hf : List FileOperation,
      (hs ++ hf).map (fun o => o.path) = [p] ∧
      (deleteFiles fs (p :: rest)).success = hs ++ (deleteFiles fs rest).success ∧
      (deleteFiles fs (p :: rest)).failed = hf ++ (deleteFiles fs rest).failed := by
  cases h : deleteOne fs p with
  | error op =>
    exact ⟨[], [op], by simp [deleteOne_error_path h], by simp [deleteFiles, h],
      by simp [deleteFiles, h]⟩
  | ok op =>
    exact ⟨[op], [], by simp [deleteOne_ok_path h], by simp [deleteFiles, h],
      by simp [deleteFiles, h]⟩

theorem checkEntry_step (fs : FSModel) (cwd : String) (cs : Bool)
    (tmap : String → Bool) (dir : String) (r : DirectoryResult) (name : String) :
    (checkEntry fs cwd cs tmap dir r name).foundItems +
      (checkEntry fs cwd cs tmap dir r name).missingPaths.length
      = r.foundItems + r.missingPaths.length + 1 ∧
    (checkEntry fs cwd cs tmap dir r name).totalItems = r.totalItems := by
  unfold checkEntry
  split <;> simp <;> omega

theorem checkEntry_fold (fs : FSModel) (cwd : String) (cs : Bool)
    (tmap : String → Bool) (dir : String) (entries : List String)
    (r0 : DirectoryResult) :
    (entries.foldl (checkEntry fs cwd cs tmap dir) r0).foundItems +
      (entries.foldl (checkEntry fs cwd cs tmap dir) r0).missingPaths.length
      = r0.foundItems + r0.missingPaths.length + entries.length ∧
    (entries.foldl (checkEntry fs cwd cs tmap dir) r0).totalItems = r0.totalItems := by
  induction entries generalizing r0 with
  | nil => simp
  | cons e es ih =>
    have hs := checkEntry_step fs cwd cs tmap dir r0 e
    have := ih (checkEntry fs cwd cs tmap dir r0 e)
    simp only [List.foldl_cons, List.length_cons]
    omega

theorem checkSingleDirectory_inv {fs : FSModel} {cwd : String} {cs : Bool}
    {tmap : String → Bool} {dir : String} {dr : DirectoryResult}
    (h : checkSingleDirectory fs cwd cs tmap dir = .ok dr) :
    dr.foundItems + dr.missingPaths.length = dr.totalItems := by
  unfold checkSingleDirectory at h
  cases he : fs.readDir dir with
  | none => rw [he] at h; cases h
  | some entries =>
    rw [he] at h
    cases h
    have := checkEntry_fold fs cwd cs tmap dir entries ⟨dir, entries.length, 0, 0, []⟩
    simp at this
    omega

theorem checkDirsAux_inv {fs : FSModel} {cwd : String} {cs : Bool}
    {tmap : String → Bool} {dirs : List String} {r : DirectoryCheckResult}
    (h : checkDirsAux fs cwd cs tmap dirs = .ok r) :
    (∀ dr ∈ r.directories, dr.foundItems + dr.missingPaths.length = dr.totalItems) ∧
    r.totalFound + r.missingPaths.length = r.totalItems := by
  induction dirs generalizing r with
  | nil => unfold checkDirsAux at h; cases h; simp
  | cons d rest ih =>
    unfold checkDirsAux at h
    cases hd : checkSingleDirectory fs cwd cs tmap d with
    | error e => rw [hd] at h; cases h
    | ok dr =>
      rw [hd] at h
      cases hr : checkDirsAux fs cwd cs tmap rest with
      | error e => rw [hr] at h; cases h
      | ok rr =>
        rw [hr] at h
        cases h
        have h1 := checkSingleDirectory_inv hd
        have h2 := ih hr
        constructor
        · intro x hx
          simp at hx
          rcases hx with hx | hx
          · exact hx ▸ h1
          · exact h2.1 x hx
        · simp
          omega

theorem checkDirsAux_error {fs : FSModel} {cwd : String} {cs : Bool}
    {tmap : String → Bool} {dirs : List String} {d : String}
    (hd : d ∈ dirs) (hread : fs.readDir d = none) :
    ∃ e, checkDirsAux fs cwd cs tmap dirs = .error e := by
  induction dirs with
  | nil => cases hd
  | cons d0 rest ih =>
    by_cases h0 : fs.readDir d0 = none
    · exact ⟨"failed to check directory " ++ d0 ++ ": " ++ "failed to read directory",
        by unfold checkDirsAux checkSingleDirectory; rw [h0]⟩
    · rcases List.mem_cons.mp hd with hd1 | hd1
      · exact absurd hread (hd1 ▸ h0)
      · rcases ih hd1 with ⟨e, he⟩
        cases hentries : fs.readDir d0 with
        | none => exact absurd hentries h0
        | some entries =>
          refine ⟨e, ?_⟩
          unfold checkDirsAux checkSingleDirectory
          rw [hentries]
          simp [he]

theorem validate_error_of_system {cwd : String} {paths allowedDirs : List String}
    {p : String} (hp : p ∈ paths)
    (hsys : isSystemPath cwd (goAbs cwd p) = true) :
    ∃ e, validateDeletionPaths cwd paths allowedDirs = .error e := by
  induction paths with
  | nil => cases hp
  | cons q rest ih =>
    unfold validateDeletionPaths
    by_cases h1 : (allowedDirs.length > 0 &&
        !(allowedDirs.any (fun d => candidateAllowed cwd (goAbs cwd q) d))) = true
    · exact ⟨"path " ++ q ++ " is not within allowed directories", by rw [if_pos h1]⟩
    · rw [if_neg h1]
      by_cases h2 : isSystemPath cwd (goAbs cwd q) = true
      · exact ⟨"refusing to delete system path: " ++ goAbs cwd q, by rw [if_pos h2]⟩
      · rw [if_neg h2]
        rcases List.mem_cons.mp hp with rfl | hp1
        · exact absurd hsys h2
        · exact ih hp1

theorem candidateAllowed_self (cwd : String) (d : String) :
    candidateAllowed cwd (goAbs cwd d) d = false := by
  unfold candidateAllowed goRel
  simp
  decide

theorem candidateAllowed_dot {cwd absPath d : String} {r : String}
    (hr : goRel (goAbs cwd d) absPath = some r)
    (hh : r.data.head? = some '.') :
    candidateAllowed cwd absPath d = false := by
  unfold candidateAllowed
  rw [hr]
  cases hd : r.data with
  | nil => rw [hd] at hh; cases hh
  | cons c cs =>
    rw [hd] at hh
    simp at hh
    subst hh
    simp [relOk, hd]

theorem validate_error_of_dot {cwd : String} {paths allowedDirs : List String}
    {p : String} (hp : p ∈ paths) (hne : allowedDirs ≠ [])
    (hall : ∀ d ∈ allowedDirs, goAbs cwd p = goAbs cwd d ∨
      ∃ r, goRel (goAbs cwd d) (goAbs cwd p) = some r ∧ r.data.head? = some '.') :
    ∃ e, validateDeletionPaths cwd paths allowedDirs = .error e := by
  have hfalse : ∀ d ∈ allowedDirs, candidateAllowed cwd (goAbs cwd p) d = false := by
    intro d hd
    rcases hall d hd with heq | ⟨r, hr, hh⟩
    · rw [heq]; exact candidateAllowed_self cwd d
    · exact candidateAllowed_dot hr hh
  induction paths with
  | nil => cases hp
  | cons q rest ih =>
    unfold validateDeletionPaths
    by_cases h1 : (allowedDirs.length > 0 &&
        !(allowedDirs.any (fun d => candidateAllowed cwd (goAbs cwd q) d))) = true
    · exact ⟨"path " ++ q ++ " is not within allowed directories", by rw [if_pos h1]⟩
    · rw [if_neg h1]
      by_cases h2 : isSystemPath cwd (goAbs cwd q) = true
      · exact ⟨"refusing to delete system path: " ++ goAbs cwd q, by rw [if_pos h2]⟩
      · rw [if_neg h2]
        rcases List.mem_cons.mp hp with rfl | hp1
        · exfalso
          apply h1
          simp only [Bool.and_eq_true, Bool.not_eq_true']
          constructor
          · simp only [gt_iff_lt, decide_eq_true_eq]
            exact List.length_pos.mpr hne
          · simp only [List.any_eq_false]
            intro d hd
            simp [hfalse d hd]
        · exact ih hp1

/-! ## Claim theorems -/

/-- Claim C1: any candidate whose resolved absolute path is on the fixed
denylist of critical system roots makes `ValidateDeletionPaths` fail
with an error, regardless of `allowedDirs`, and the deletion workflow
then stops before `DeleteFiles` is invoked (no deletion result is ever
produced). -/
theorem validateDeletionPaths_rejects_system_paths
    (cwd : String) (paths allowedDirs : List String) (p : String)
    (hp : p ∈ paths) (hsys : isSystemPath cwd (goAbs cwd p) = true) :
    (∃ e, validateDeletionPaths cwd paths allowedDirs = .error e) ∧
    (∀ fs : FSModel, ∀ confirmed : Bool,
      ∃ e, runDeleteWorkflow fs cwd paths allowedDirs confirmed = .error e) := by
  rcases validate_error_of_system hp hsys with ⟨e, he⟩
  refine ⟨⟨e, he⟩, fun fs confirmed => ⟨"path validation failed: " ++ e, ?_⟩⟩
  unfold runDeleteWorkflow
  rw [he]

/-- Claim C1 witness: the candidate `/etc` is a denylisted system path
and is rejected even though `allowedDirs = ["/data"]` would already have
rejected it, and the workflow fails without deleting. -/
theorem validateDeletionPaths_rejects_system_paths_witness :
    "/etc" ∈ ["/etc"] ∧ isSystemPath "/cwd" (goAbs "/cwd" "/etc") = true ∧
    ((∃ e, validateDeletionPaths "/cwd" ["/etc"] ["/data"] = .error e) ∧
      (∀ fs : FSModel, ∀ confirmed : Bool,
        ∃ e, runDeleteWorkflow fs "/cwd" ["/etc"] ["/data"] confirmed = .error e)) :=
  ⟨by simp, by decide,
    validateDeletionPaths_rejects_system_paths "/cwd" ["/etc"] ["/data"] "/etc"
      (by simp) (by decide)⟩

/-- Claim C2: containment is strict relative-path descent, not string
prefixing: with `allowedDirs = ["/data"]` the candidate
`/data-other/file` fails validation with an error naming it, while
`/data/sub/file` passes. -/
theorem validateDeletionPaths_descent_not_prefix (cwd : String) :
    validateDeletionPaths cwd ["/data-other/file"] ["/data"] =
      .error "path /data-other/file is not within allowed directories" ∧
    validateDeletionPaths cwd ["/data/sub/file"] ["/data"] = .ok () := by
  constructor <;> rfl

/-- Claim C5 counterexample: with `/bad` unreadable and `/good` readable,
`CheckDirectories` returns an error for the whole run instead of
skipping `/bad` and still processing `/good`. -/
theorem checkDirectories_abort_cex :
    fsEx.readDir "/bad" = none ∧ fsEx.readDir "/good" = some ["x"] ∧
    checkDirectories fsEx "/cwd" true [] ["/bad", "/good"] =
      .error "failed to check directory /bad: failed to read directory" :=
  ⟨rfl, rfl, rfl⟩

/-- Claim C5 (amended): a read failure on any requested directory makes
`CheckDirectories` fail with an error instead of skipping that directory;
no aggregate result is produced for the remaining directories. -/
theorem checkDirectories_read_failure_aborts
    (fs : FSModel) (cwd : String) (cs : Bool) (ts : List TorrentInfo)
    (dirs : List String) (d : String)
    (hd : d ∈ dirs) (hread : fs.readDir d = none) :
    ∃ e, checkDirectories fs cwd cs ts dirs = .error e :=
  checkDirsAux_error hd hread

/-- Claim C5 witness: instantiating the amended claim on the concrete
two-directory filesystem. -/
theorem checkDirectories_read_failure_aborts_witness :
    "/bad" ∈ ["/bad", "/good"] ∧ fsEx.readDir "/bad" = none ∧
    (∃ e, checkDirectories fsEx "/cwd" true [] ["/bad", "/good"] = .error e) :=
  ⟨by simp, rfl,
    checkDirectories_read_failure_aborts fsEx "/cwd" true [] ["/bad", "/good"]
      "/bad" (by simp) rfl⟩

/-- Claim C6: in every successful directory check, each per-directory
result and the aggregate satisfy
`found + len(missingPaths) = totalItems`. -/
theorem checkDirectories_found_missing_invariant
    (fs : FSModel) (cwd : String) (cs : Bool) (ts : List TorrentInfo)
    (dirs : List String) (r : DirectoryCheckResult)
    (h : checkDirectories fs cwd cs ts dirs = .ok r) :
    (∀ dr ∈ r.directories,
      dr.foundItems + dr.missingPaths.length = dr.totalItems) ∧
    r.totalFound + r.missingPaths.length = r.totalItems :=
  checkDirsAux_inv h

/-- Claim C6 witness: a concrete run over `/d` with two missing entries
satisfies the invariant. -/
theorem checkDirectories_found_missing_invariant_witness :
    checkDirectories fsC6 "/cwd" true [] ["/d"] =
      .ok ⟨[⟨"/d", 2, 0, 0, ["/d/a", "/d/b"]⟩], 2, 0, 0, ["/d/a", "/d/b"]⟩ ∧
    ((∀ dr ∈ ([⟨"/d", 2, 0, 0, ["/d/a", "/d/b"]⟩] : List DirectoryResult),
        dr.foundItems + dr.missingPaths.length = dr.totalItems) ∧
      0 + (["/d/a", "/d/b"] : List String).length = 2) :=
  ⟨rfl,
    checkDirectories_found_missing_invariant fsC6 "/cwd" true [] ["/d"]
      ⟨[⟨"/d", 2, 0, 0, ["/d/a", "/d/b"]⟩], 2, 0, 0, ["/d/a", "/d/b"]⟩ rfl⟩

/-- Claim C7: `DeleteFiles` files every candidate in exactly one of the
two outcome lists (the concatenated outcome paths are a permutation of
the candidates), the counters agree with those lists and sum to the
number of candidates, and the outcome of the remaining candidates is
unchanged by the head candidate's success or failure. -/
theorem deleteFiles_partition (fs : FSModel) (paths : List String)
    (p : String) (rest : List String) :
    (deleteFiles fs paths).successCount = (deleteFiles fs paths).success.length ∧
    (deleteFiles fs paths).failedCount = (deleteFiles fs paths).failed.length ∧
    (deleteFiles fs paths).success.length + (deleteFiles fs paths).failed.length
      = paths.length ∧
    (((deleteFiles fs paths).success.map (fun o => o.path)) ++
      ((deleteFiles fs paths).failed.map (fun o => o.path))).Perm paths ∧
    (∃ hs hf : List FileOperation,
      (hs ++ hf).map (fun o => o.path) = [p] ∧
      (deleteFiles fs (p :: rest)).success = hs ++ (deleteFiles fs rest).success ∧
      (deleteFiles fs (p :: rest)).failed = hf ++ (deleteFiles fs rest).failed) :=
  ⟨(deleteFiles_counts fs paths).1, (deleteFiles_counts fs paths).2.1,
    (deleteFiles_counts fs paths).2.2, deleteFiles_perm fs paths,
    deleteFiles_cons fs p rest⟩

/-- Claim C8: `SanitizeString` is idempotent, never removes newline, tab
or carriage return (their occurrence counts are preserved), and its
output contains no other control characters and no bidirectional
formatting mark. -/
theorem sanitizeString_idempotent_and_selective (s : String) (c : Char) :
    SanitizeString (SanitizeString s) = SanitizeString s ∧
    ((c = '\n' ∨ c = '\t' ∨ c = '\r') →
      (SanitizeString s).data.count c = s.data.count c) ∧
    (c ∈ (SanitizeString s).data →
      (uIsControl c = true → c = '\n' ∨ c = '\t' ∨ c = '\r') ∧
      c ∉ bidiMarks) := by
  refine ⟨?_, ?_, ?_⟩
  · simp [SanitizeString, List.filter_filter]
  · intro h
    have hk : sanitizeKeeps c = true := by
      rcases h with h | h | h <;> subst h <;> decide
    simp only [SanitizeString]
    rw [List.count_filter hk]
  · intro h
    have hk : sanitizeKeeps c = true := (List.mem_filter.mp h).2
    simp only [sanitizeKeeps, Bool.and_eq_true, Bool.not_eq_true',
      Bool.and_eq_false_imp, bne_eq_false_iff_eq, Bool.not_eq_true] at hk
    constructor
    · intro hc
      rcases hk with ⟨hk1, _⟩
      by_cases hn : c = '\n'
      · exact Or.inl hn
      · by_cases ht : c = '\t'
        · exact Or.inr (Or.inl ht)
        · by_cases hr : c = '\r'
          · exact Or.inr (Or.inr hr)
          · exfalso
            simp [hc, hn, ht, hr] at hk1
    · rcases hk with ⟨_, hk2⟩
      simpa using hk2

/-- Claim C8 witness: a string holding a letter, a control byte, a bidi
mark and a newline; the newline count is preserved and the surviving
letter is neither a disallowed control character nor a bidi mark. -/
theorem sanitizeString_idempotent_and_selective_witness :
    ('\n' = '\n' ∨ '\n' = '\t' ∨ '\n' = '\r') ∧
    (SanitizeString "a\u0005‎b\n").data.count '\n'
      = "a\u0005‎b\n".data.count '\n' ∧
    'a' ∈ (SanitizeString "a\u0005‎b\n").data ∧
    ((uIsControl 'a' = true → 'a' = '\n' ∨ 'a' = '\t' ∨ 'a' = '\r') ∧
      'a' ∉ bidiMarks) :=
  ⟨Or.inl rfl,
    (sanitizeString_idempotent_and_selective "a\u0005‎b\n" '\n').2.1 (Or.inl rfl),
    by decide,
    (sanitizeString_idempotent_and_selective "a\u0005‎b\n" 'a').2.2 (by decide)⟩

/-- Claim C9: `GetAllTorrentPaths` returns the sanitized joins of storage
directory and name, sorted lexicographically ascending, and as a pure
function of the item list it returns identical output on identical
input. -/
theorem getAllTorrentPaths_sorted_deterministic (ts : List TorrentInfo) :
    (getAllTorrentPaths ts).Sorted (· ≤ ·) ∧
    (getAllTorrentPaths ts).Perm
      (ts.map (fun t => SanitizeString (goJoin t.downloadDir t.name))) ∧
    getAllTorrentPaths ts = getAllTorrentPaths ts := by
  refine ⟨?_, ?_, rfl⟩
  · exact List.sorted_insertionSort (· ≤ ·) _
  · exact List.perm_insertionSort (· ≤ ·) _

/-- Claim C10: a candidate that resolves to an allowed directory itself,
or whose relative path from every allowed directory starts with `.`
(for example a hidden entry directly inside it), fails validation even
though it lies inside the allowed tree, because the containment test
demands a non-empty relative path not starting with `.`. -/
theorem validateDeletionPaths_rejects_dot_relatives
    (cwd : String) (paths allowedDirs : List String) (p : String)
    (hp : p ∈ paths) (hne : allowedDirs ≠ [])
    (hall : ∀ d ∈ allowedDirs, goAbs cwd p = goAbs cwd d ∨
      ∃ r, goRel (goAbs cwd d) (goAbs cwd p) = some r ∧
        r.data.head? = some '.') :
    ∃ e, validateDeletionPaths cwd paths allowedDirs = .error e :=
  validate_error_of_dot hp hne hall

/-- Claim C10 witness: the hidden entry `/data/.hidden` under allowed
directory `/data` has relative path `.hidden` and is rejected; the
allowed directory `/data` itself resolves to `.` and is rejected. -/
theorem validateDeletionPaths_rejects_dot_relatives_witness :
    (∃ e, validateDeletionPaths "/cwd" ["/data/.hidden"] ["/data"] = .error e) ∧
    (∃ e, validateDeletionPaths "/cwd" ["/data"] ["/data"] = .error e) :=
  ⟨validateDeletionPaths_rejects_dot_relatives "/cwd" ["/data/.hidden"] ["/data"]
      "/data/.hidden" (by simp) (by simp)
      (by
        intro d hd
        simp only [List.mem_singleton] at hd
        subst hd
        exact Or.inr ⟨".hidden", by decide, rfl⟩),
    validateDeletionPaths_rejects_dot_relatives "/cwd" ["/data"] ["/data"]
      "/data" (by simp) (by simp)
      (by
        intro d hd
        simp only [List.mem_singleton] at hd
        subst hd
        exact Or.inl rfl)⟩

/-- Claim C4: in the `GetSessionID` handshake, a 409 response carrying
the session header succeeds with that header value; any other status of
at least 400 is a hard failure; and a response below 400 (including 200)
without the header fails reporting that no session token was received. -/
theorem getSessionID_handshake_statuses (host : String) (port : Nat)
    (r : RPCResponse) :
    (r.status = 409 → r.sessionId ≠ "" →
      getSessionID host port (some r) = .ok r.sessionId) ∧
    (r.status ≥ 400 → r.status ≠ 409 →
      ∃ e, getSessionID host port (some r) = .error e) ∧
    (r.sessionId = "" → ∃ e, getSessionID host port (some r) = .error e) ∧
    (r.status < 400 → r.sessionId = "" →
      getSessionID host port (some r) =
        .error ("no session ID received from Transmission at " ++ host ++ ":"
          ++ toString port ++ ". Ensure RPC interface is enabled")) := by
  refine ⟨?_, ?_, ?_, ?_⟩ <;> simp only [getSessionID]
  · intro h9 hs
    split_ifs <;> simp_all
  · intro hge h9
    split_ifs <;> simp_all <;> omega
  · intro hs
    split_ifs <;> simp_all
  · intro hlt hs
    split_ifs <;> simp_all <;> omega

/-- Claim C4 witness: a 409 handshake response with header `abc` yields
token `abc`; a 500 response fails; a bare 200 response without the
header fails. -/
theorem getSessionID_handshake_statuses_witness :
    getSessionID "host" 9091 (some ⟨409, "abc", "", []⟩) = .ok "abc" ∧
    (∃ e, getSessionID "host" 9091 (some ⟨500, "x", "", []⟩) = .error e) ∧
    (∃ e, getSessionID "host" 9091 (some ⟨200, "", "", []⟩) = .error e) :=
  ⟨(getSessionID_handshake_statuses "host" 9091 ⟨409, "abc", "", []⟩).1
      rfl (by decide),
    (getSessionID_handshake_statuses "host" 9091 ⟨500, "x", "", []⟩).2.1
      (by decide) (by decide),
    (getSessionID_handshake_statuses "host" 9091 ⟨200, "", "", []⟩).2.2.1 rfl⟩

/-- Claim C3: an authenticated call that receives a 409 clears the
cached token and retries exactly once with the freshly acquired token:
a 409 followed by a successful 200 yields the payload after exactly two
transport calls, and a 409 on both calls is a hard session error after
exactly two transport calls with no further retries (the remaining
transport responses stay unconsumed). -/
theorem doAuthenticatedRequest_conflict_retry (tok : String)
    (r1 r2 : RPCResponse) (rest : List RPCResponse)
    (h1 : r1.status = 409) (hsid : r1.sessionId ≠ "") :
    (r2.status = 200 → r2.result = "success" →
      doAuthenticatedRequest (some tok) (r1 :: r2 :: rest) =
        ⟨.ok r2.torrents, some r1.sessionId, rest, 2⟩) ∧
    (r2.status = 409 →
      doAuthenticatedRequest (some tok) (r1 :: r2 :: rest) =
        ⟨.error "session conflict: invalid session ID. Re-authentication required",
          none, rest, 2⟩) := by
  constructor
  · intro hst hres
    simp [doAuthenticatedRequest, getSessionIDCached, finishAuthedResponse,
      h1, hsid, hst, hres]
  · intro hst
    simp [doAuthenticatedRequest, getSessionIDCached, h1, hsid, hst]

/-- Claim C3 witness: concrete 409-then-200 and 409-then-409 transports,
starting from a cached token. -/
theorem doAuthenticatedRequest_conflict_retry_witness :
    doAuthenticatedRequest (some "tok")
        [⟨409, "fresh", "", []⟩, ⟨200, "", "success", [⟨1, "A", "/d", "h"⟩]⟩] =
      ⟨.ok [⟨1, "A", "/d", "h"⟩], some "fresh", [], 2⟩ ∧
    doAuthenticatedRequest (some "tok")
        [⟨409, "fresh", "", []⟩, ⟨409, "", "", []⟩] =
      ⟨.error "session conflict: invalid session ID. Re-authentication required",
        none, [], 2⟩ :=
  ⟨(doAuthenticatedRequest_conflict_retry "tok" ⟨409, "fresh", "", []⟩
      ⟨200, "", "success", [⟨1, "A", "/d", "h"⟩]⟩ [] rfl (by decide)).1 rfl rfl,
    (doAuthenticatedRequest_conflict_retry "tok" ⟨409, "fresh", "", []⟩
      ⟨409, "", "", []⟩ [] rfl (by decide)).2 rfl⟩
